import Mathlib

/-!
# Verification of `always_ready_future`

A shallow embedding of `src/always_ready_future.hpp` and the executor
contract it supports, with proofs about the embedded operations.

Modelling conventions:
* C++ exceptions are modelled as values of an abstract payload type `ε`;
  raising is the `Except.error` channel, `std::exception_ptr` is identified
  with the payload it references, and a zero-argument callable that may
  raise is a function `Unit → Except ε α`.
* `std::experimental::variant<T, std::exception_ptr>` is `Sum T ε`;
  `std::experimental::optional<std::exception_ptr>` is `Option ε`.
* `always_ready_future<T>::get()` (hpp lines 41-44) calls
  `std::experimental::visit(get_visitor(), value_)` and then reaches the
  end of a non-void function without a `return` statement.  In the value
  case the visitor's result is discarded and no determinate `T` is
  produced; that indeterminate outcome is embedded as `Option.none`, so
  the result type of the embedded `get` is `Except ε (Option T)`.
* Moving a value out of the variant leaves an unspecified moved-from value
  behind; the embedding abstracts this as a parameter `moved : T → T`.
-/

/-- Embeds `always_ready_future<T>` (hpp lines 13-68): a wrapper holding
`std::experimental::variant<T, std::exception_ptr> value_`. -/
structure always_ready_future (T ε : Type) where
  value_ : Sum T ε
deriving DecidableEq, Repr

namespace always_ready_future

/-- Embeds the constructors `always_ready_future(const T&)` and
`always_ready_future(T&&)` (hpp lines 17 and 19): the variant holds the value. -/
def fromValue {T ε : Type} (value : T) : always_ready_future T ε :=
  ⟨Sum.inl value⟩

/-- Embeds the constructor `always_ready_future(std::exception_ptr)`
(hpp line 21): the variant holds the captured failure. -/
def fromError {T ε : Type} (e : ε) : always_ready_future T ε :=
  ⟨Sum.inr e⟩

/-- Embeds `get_visitor` (hpp lines 24-38): on the value alternative it
returns `std::move(value)`; on the exception alternative it does `throw e`
(the trailing `return T()` is unreachable). -/
def get_visitor {T ε : Type} (alt : Sum T ε) : Except ε T :=
  match alt with
  | Sum.inl value => Except.ok value
  | Sum.inr e => Except.error e

/-- Embeds `T get()` (hpp lines 41-44).  The body is exactly
`std::experimental::visit(get_visitor(), value_);` with no `return`:
if the visitor throws, the exception propagates; if it returns a value,
that value is discarded and control falls off the end of a non-void
function, so no determinate value is produced (embedded as `none`). -/
def get {T ε : Type} (fut : always_ready_future T ε) : Except ε (Option T) :=
  match get_visitor fut.value_ with
  | Except.ok _ => Except.ok none
  | Except.error e => Except.error e

/-- Embeds `T get()` (hpp lines 41-44) together with its effect on the
stored state: in the value case the visitor moves the stored value out,
leaving the unspecified moved-from value `moved value` in the same variant
alternative; in the exception case `throw e` copies the pointer and the
variant is untouched. -/
def get_full {T ε : Type} (moved : T → T) (fut : always_ready_future T ε) :
    Except ε (Option T) × always_ready_future T ε :=
  match fut.value_ with
  | Sum.inl value => (Except.ok none, ⟨Sum.inl (moved value)⟩)
  | Sum.inr e => (Except.error e, fut)

/-- Embeds `void wait() const` (hpp lines 49-52): the body is empty, so it
returns normally; being `const`, it cannot alter `value_`. -/
def wait {T ε : Type} (_fut : always_ready_future T ε) : Except ε Unit :=
  Except.ok ()

/-- `true` iff the variant currently holds the value alternative. -/
def holds_value {T ε : Type} (fut : always_ready_future T ε) : Bool :=
  fut.value_.isLeft

/-- `true` iff the variant currently holds the exception alternative. -/
def holds_error {T ε : Type} (fut : always_ready_future T ε) : Bool :=
  fut.value_.isRight

end always_ready_future

/-- Embeds the specialization `always_ready_future<void>` (hpp lines 71-110):
it stores `std::experimental::optional<std::exception_ptr> exception_`. -/
structure always_ready_future_void (ε : Type) where
  exception_ : Option ε
deriving DecidableEq, Repr

namespace always_ready_future_void

/-- Embeds the default constructor `always_ready_future()` (hpp line 75):
the optional is left disengaged. -/
def mkDefault {ε : Type} : always_ready_future_void ε :=
  ⟨none⟩

/-- Embeds the constructor `always_ready_future(std::exception_ptr)`
(hpp line 77): the optional holds the captured failure. -/
def fromError {ε : Type} (e : ε) : always_ready_future_void ε :=
  ⟨some e⟩

/-- Embeds `void get()` (hpp lines 80-86): if the optional is engaged it
does `throw exception_.value()` (the stored pointer is copied by the throw
and `exception_` is not written), otherwise it returns normally. -/
def get {ε : Type} (fut : always_ready_future_void ε) : Except ε Unit :=
  match fut.exception_ with
  | some e => Except.error e
  | none => Except.ok ()

/-- Embeds `void get()` (hpp lines 80-86) together with its effect on the
stored state: the body never assigns to `exception_`, so the state is
returned unchanged on both paths. -/
def get_full {ε : Type} (fut : always_ready_future_void ε) :
    Except ε Unit × always_ready_future_void ε :=
  (fut.get, fut)

/-- Embeds `void wait() const` (hpp lines 91-94): empty body, returns
normally; `const`, so `exception_` cannot change. -/
def wait {ε : Type} (_fut : always_ready_future_void ε) : Except ε Unit :=
  Except.ok ()

/-- `true` iff the optional currently holds a captured failure. -/
def holds_error {ε : Type} (fut : always_ready_future_void ε) : Bool :=
  fut.exception_.isSome

end always_ready_future_void

namespace detail

/-- Embeds the non-void overload of `detail::try_invoke` (hpp lines 117-133):
`try { return always_ready_future<Result>(f()); } catch(...) { return
always_ready_future<Result>(std::current_exception()); }`.  An outer
`Except.error` would mean an exception escaping `try_invoke` itself; the
`catch(...)` clause converts every failure of `f` into the error slot of
the returned future, so only `Except.ok` is ever produced. -/
def try_invoke {T ε : Type} (f : Unit → Except ε T) :
    Except ε (always_ready_future T ε) :=
  match f () with
  | Except.ok v => Except.ok (always_ready_future.fromValue v)
  | Except.error e => Except.ok (always_ready_future.fromError e)

/-- Embeds the void overload of `detail::try_invoke` (hpp lines 136-153):
`try { f(); return always_ready_future<void>(); } catch(...) { return
always_ready_future<void>(std::current_exception()); }`. -/
def try_invoke_void {ε : Type} (f : Unit → Except ε Unit) :
    Except ε (always_ready_future_void ε) :=
  match f () with
  | Except.ok _ => Except.ok always_ready_future_void.mkDefault
  | Except.error e => Except.ok (always_ready_future_void.fromError e)

end detail

/-- An observation step on a future: the two public member functions
`wait()` and `get()` of hpp lines 41-52 / 80-94. -/
inductive FutOp : Type where
  | wait : FutOp
  | get : FutOp
deriving DecidableEq, Repr

/-- The state of an `always_ready_future<T>` after one observation step:
`wait()` is a `const` no-op; `get()`'s state effect is that of
`always_ready_future.get_full`. -/
def run_op {T ε : Type} (moved : T → T) (op : FutOp)
    (fut : always_ready_future T ε) : always_ready_future T ε :=
  match op with
  | FutOp.wait => fut
  | FutOp.get => (fut.get_full moved).snd

/-- The state of an `always_ready_future<T>` after a sequence of
`wait()`/`get()` observation steps. -/
def run_ops {T ε : Type} (moved : T → T) (ops : List FutOp)
    (fut : always_ready_future T ε) : always_ready_future T ε :=
  ops.foldl (fun s op => run_op moved op s) fut

/-- The state of an `always_ready_future<void>` after one observation step:
`wait()` is a `const` no-op; `get()`'s state effect is that of
`always_ready_future_void.get_full`. -/
def run_op_void {ε : Type} (op : FutOp)
    (fut : always_ready_future_void ε) : always_ready_future_void ε :=
  match op with
  | FutOp.wait => fut
  | FutOp.get => fut.get_full.snd

/-- The state of an `always_ready_future<void>` after a sequence of
`wait()`/`get()` observation steps. -/
def run_ops_void {ε : Type} (ops : List FutOp)
    (fut : always_ready_future_void ε) : always_ready_future_void ε :=
  ops.foldl (fun s op => run_op_void op s) fut

/-- The results of `k` successive calls to `get()` on one
`always_ready_future<T>` instance, each call acting on the state the
previous one left behind. -/
def get_results {T ε : Type} (moved : T → T) (k : Nat)
    (fut : always_ready_future T ε) : List (Except ε (Option T)) :=
  match k with
  | 0 => []
  | Nat.succ k => (fut.get_full moved).fst ::
      get_results moved k (fut.get_full moved).snd

/-- The results of `k` successive calls to `get()` on one
`always_ready_future<void>` instance. -/
def get_results_void {ε : Type} (k : Nat)
    (fut : always_ready_future_void ε) : List (Except ε Unit) :=
  match k with
  | 0 => []
  | Nat.succ k => fut.get_full.fst :: get_results_void k fut.get_full.snd

namespace inline_executor

/-- One observable call made during a bulk execution: a factory invocation
or an element invocation at some index, recorded with the shared-state
objects it received. -/
inductive BulkEvent (A B : Type) : Type where
  | factory_a : A → BulkEvent A B
  | factory_b : B → BulkEvent A B
  | element : Nat → A → B → BulkEvent A B
deriving DecidableEq, Repr

/-- `true` iff the event is the element invocation at index `i`. -/
def BulkEvent.is_element_at {A B : Type} (i : Nat) : BulkEvent A B → Bool
  | BulkEvent.element j _ _ => j == i
  | _ => false

/-- `true` iff the event is an element invocation. -/
def BulkEvent.is_element {A B : Type} : BulkEvent A B → Bool
  | BulkEvent.element _ _ _ => true
  | _ => false

/-- `true` iff the event is one of the two factory invocations. -/
def BulkEvent.is_factory {A B : Type} : BulkEvent A B → Bool
  | BulkEvent.factory_a _ => true
  | BulkEvent.factory_b _ => true
  | _ => false

/-- `true` iff the event is the first factory's invocation. -/
def BulkEvent.is_factory_first {A B : Type} : BulkEvent A B → Bool
  | BulkEvent.factory_a _ => true
  | _ => false

/-- `true` iff the event is the second factory's invocation. -/
def BulkEvent.is_factory_second {A B : Type} : BulkEvent A B → Bool
  | BulkEvent.factory_b _ => true
  | _ => false

/-- Modelled from the spec: `inline_executor.hpp` (included by
`src/saxpy.cpp` line 7) is not under `src/`, so `bulk_sync_execute` is
modelled from spec section 4.4: the two zero-argument factories are each
invoked exactly once, before any element invocation, producing the two
shared-state objects; the callable is then invoked once per index in
`[0, n)`, every invocation receiving the same two shared objects; the
reference implementation uses sequential index order.  The function
returns the trace of calls made. -/
def bulk_sync_execute {A B : Type} (n : Nat) (fa : Unit → A) (fb : Unit → B) :
    List (BulkEvent A B) :=
  let a := fa ()
  let b := fb ()
  BulkEvent.factory_a a :: BulkEvent.factory_b b ::
    (List.range n).map (fun i => BulkEvent.element i a b)

/-- Modelled from the spec: `inline_executor.hpp` (included by
`src/saxpy.cpp` line 7) is not under `src/`, so `async_execute` is
modelled from spec section 4.3: it invokes the callable synchronously on
the calling thread and returns a ready future holding either its result or
its captured failure, via the invocation guard `detail.try_invoke`
(hpp lines 117-133). -/
def async_execute {T ε : Type} (f : Unit → Except ε T) :
    Except ε (always_ready_future T ε) :=
  detail.try_invoke f

end inline_executor

/-! ## Helper lemmas -/

theorem run_op_preserves_holds_value {T ε : Type} (moved : T → T) (op : FutOp)
    (fut : always_ready_future T ε) :
    (run_op moved op fut).holds_value = fut.holds_value := by
  cases op with
  | wait => rfl
  | get =>
    cases fut with
    | mk alt =>
      cases alt <;>
        simp [run_op, always_ready_future.get_full, always_ready_future.holds_value]

theorem run_ops_preserves_holds_value {T ε : Type} (moved : T → T)
    (ops : List FutOp) (fut : always_ready_future T ε) :
    (run_ops moved ops fut).holds_value = fut.holds_value := by
  induction ops generalizing fut with
  | nil => rfl
  | cons op ops ih =>
    calc (run_ops moved (op :: ops) fut).holds_value
        = (run_ops moved ops (run_op moved op fut)).holds_value := rfl
      _ = (run_op moved op fut).holds_value := ih _
      _ = fut.holds_value := run_op_preserves_holds_value moved op fut

theorem holds_error_eq_not_holds_value {T ε : Type}
    (fut : always_ready_future T ε) :
    fut.holds_error = !fut.holds_value := by
  cases fut with
  | mk alt =>
    cases alt <;>
      simp [always_ready_future.holds_error, always_ready_future.holds_value]

theorem run_op_void_eq {ε : Type} (op : FutOp)
    (fut : always_ready_future_void ε) : run_op_void op fut = fut := by
  cases op <;> rfl

theorem run_ops_void_eq {ε : Type} (ops : List FutOp)
    (fut : always_ready_future_void ε) : run_ops_void ops fut = fut := by
  induction ops generalizing fut with
  | nil => rfl
  | cons op ops ih =>
    calc run_ops_void (op :: ops) fut
        = run_ops_void ops (run_op_void op fut) := rfl
      _ = run_op_void op fut := ih _
      _ = fut := run_op_void_eq op fut

theorem get_results_fromError {T ε : Type} (moved : T → T) (e : ε) (k : Nat) :
    get_results moved k (always_ready_future.fromError (T := T) e) =
      List.replicate k (Except.error e) := by
  induction k with
  | zero => rfl
  | succ k ih =>
    calc get_results moved (k + 1) (always_ready_future.fromError (T := T) e)
        = Except.error e ::
            get_results moved k (always_ready_future.fromError (T := T) e) := rfl
      _ = Except.error e :: List.replicate k (Except.error e) := by rw [ih]
      _ = List.replicate (k + 1) (Except.error e) := rfl

theorem get_results_void_fromError {ε : Type} (e : ε) (k : Nat) :
    get_results_void k (always_ready_future_void.fromError e) =
      List.replicate k (Except.error e) := by
  induction k with
  | zero => rfl
  | succ k ih =>
    calc get_results_void (k + 1) (always_ready_future_void.fromError e)
        = Except.error e ::
            get_results_void k (always_ready_future_void.fromError e) := rfl
      _ = Except.error e :: List.replicate k (Except.error e) := by rw [ih]
      _ = List.replicate (k + 1) (Except.error e) := rfl

theorem bulk_factory_position {A B : Type} (n : Nat) (fa : Unit → A)
    (fb : Unit → B) (j : Nat) (ev : inline_executor.BulkEvent A B)
    (h : (inline_executor.bulk_sync_execute n fa fb)[j]? = some ev)
    (hf : ev.is_factory = true) : j < 2 := by
  match j with
  | 0 => omega
  | 1 => omega
  | j + 2 =>
    exfalso
    have hj : ((List.range n).map
        (fun i => inline_executor.BulkEvent.element i (fa ()) (fb ())))[j]? =
        some ev := by
      simpa [inline_executor.bulk_sync_execute] using h
    have hm := List.getElem?_mem hj
    rcases List.mem_map.mp hm with ⟨i, _, rfl⟩
    simp [inline_executor.BulkEvent.is_factory] at hf

theorem bulk_element_position {A B : Type} (n : Nat) (fa : Unit → A)
    (fb : Unit → B) (k : Nat) (ev : inline_executor.BulkEvent A B)
    (h : (inline_executor.bulk_sync_execute n fa fb)[k]? = some ev)
    (he : ev.is_element = true) : 2 ≤ k := by
  match k with
  | 0 =>
    exfalso
    simp [inline_executor.bulk_sync_execute] at h
    rw [← h] at he
    simp [inline_executor.BulkEvent.is_element] at he
  | 1 =>
    exfalso
    simp [inline_executor.bulk_sync_execute] at h
    rw [← h] at he
    simp [inline_executor.BulkEvent.is_element] at he
  | k + 2 => omega

/-! ## Claim theorems -/

/-- C1: the claim states that `always_ready_future<T>(v).get()` returns a
value equal to `v`.  The code does not: `get()` (hpp lines 41-44) calls
`visit(get_visitor(), value_)`, discards the visitor's moved-out value and
falls off the end of a non-void function, so no determinate value — in
particular not one equal to `v` — is returned.  Evaluated at `v = 42`. -/
theorem C1_get_discards_value :
    (always_ready_future.fromValue (ε := Nat) (42 : Nat)).get = Except.ok none ∧
    (always_ready_future.fromValue (ε := Nat) (42 : Nat)).get ≠
      Except.ok (some 42) := by
  refine ⟨rfl, ?_⟩
  intro h
  exact Option.noConfusion (Except.ok.inj h)

/-- C2: for every captured failure `e`, `get()` on a future constructed
from `e` — both the general `T` instance and the void specialization —
raises exactly the stored failure `e` synchronously to the caller. -/
theorem C2_fromError_get_reraises {T ε : Type} (e : ε) :
    (always_ready_future.fromError (T := T) e).get = Except.error e ∧
    (always_ready_future_void.fromError e).get = Except.error e :=
  ⟨rfl, rfl⟩

/-- C3: `wait()` on any `always_ready_future` (value- or error-holding,
any `T` including void) returns immediately with no failure, leaves the
stored state unchanged, and a subsequent `get()` produces exactly the
result and state it would have produced without the `wait()` call. -/
theorem C3_wait_noop {T ε : Type} (moved : T → T)
    (fut : always_ready_future T ε) (futv : always_ready_future_void ε) :
    fut.wait = Except.ok () ∧ futv.wait = Except.ok () ∧
    run_op moved FutOp.wait fut = fut ∧
    run_op_void FutOp.wait futv = futv ∧
    (run_op moved FutOp.wait fut).get_full moved = fut.get_full moved ∧
    (run_op_void FutOp.wait futv).get_full = futv.get_full :=
  ⟨rfl, rfl, rfl, rfl, rfl, rfl⟩

/-- C4: `detail::try_invoke` never itself raises: for every callable
(value-returning or void-returning) the result is an `Except.ok` future,
and every failure the callable raises is captured into an error-holding
future of the appropriate result type. -/
theorem C4_try_invoke_never_raises {T ε : Type} (f : Unit → Except ε T)
    (g : Unit → Except ε Unit) :
    (∃ r, detail.try_invoke f = Except.ok r) ∧
    (∃ r, detail.try_invoke_void g = Except.ok r) ∧
    (∀ e, f () = Except.error e →
      detail.try_invoke f = Except.ok (always_ready_future.fromError e)) ∧
    (∀ e, g () = Except.error e →
      detail.try_invoke_void g = Except.ok (always_ready_future_void.fromError e)) := by
  refine ⟨?_, ?_, ?_, ?_⟩
  · cases h : f () with
    | ok v =>
      exact ⟨always_ready_future.fromValue v, by simp [detail.try_invoke, h]⟩
    | error e =>
      exact ⟨always_ready_future.fromError e, by simp [detail.try_invoke, h]⟩
  · cases h : g () with
    | ok v =>
      exact ⟨always_ready_future_void.mkDefault, by simp [detail.try_invoke_void, h]⟩
    | error e =>
      exact ⟨always_ready_future_void.fromError e, by simp [detail.try_invoke_void, h]⟩
  · intro e h
    simp [detail.try_invoke, h]
  · intro e h
    simp [detail.try_invoke_void, h]

/-- Witness for C4 at the concrete callables `fun _ => Except.error 3`
(value-returning shape) and `fun _ => Except.error 5` (void shape). -/
theorem C4_witness :
    (∃ r, detail.try_invoke (fun _ => (Except.error 3 : Except Nat Nat)) =
      Except.ok r) ∧
    detail.try_invoke (fun _ => (Except.error 3 : Except Nat Nat)) =
      Except.ok (always_ready_future.fromError 3) ∧
    detail.try_invoke_void (fun _ => (Except.error 5 : Except Nat Unit)) =
      Except.ok (always_ready_future_void.fromError 5) := by
  have h := C4_try_invoke_never_raises
    (fun _ => (Except.error 3 : Except Nat Nat))
    (fun _ => (Except.error 5 : Except Nat Unit))
  exact ⟨h.1, h.2.2.1 3 rfl, h.2.2.2 5 rfl⟩

/-- C5: the claim states that for a callable returning `v` without failing,
`try_invoke(f).get()` equals `v`.  The code does not satisfy this: at
`f = fun _ => 7`, `try_invoke` produces the value-holding future for `7`,
but `get()` (hpp lines 41-44) discards the visitor's result and returns no
determinate value (the missing-`return` bug), so `get()` does not yield
`7`. -/
theorem C5_round_trip_broken :
    detail.try_invoke (fun _ => (Except.ok 7 : Except Nat Nat)) =
      Except.ok (always_ready_future.fromValue 7) ∧
    (always_ready_future.fromValue (ε := Nat) (7 : Nat)).get = Except.ok none ∧
    (always_ready_future.fromValue (ε := Nat) (7 : Nat)).get ≠
      Except.ok (some 7) := by
  refine ⟨rfl, rfl, ?_⟩
  intro h
  exact Option.noConfusion (Except.ok.inj h)

/-- C6: for the void specialization, a future constructed from a captured
failure `e` raises `e` on `get()`, and a default-constructed future (no
error) returns normally from `get()`. -/
theorem C6_void_get_behavior {ε : Type} (e : ε) :
    (always_ready_future_void.fromError e).get = Except.error e ∧
    (always_ready_future_void.mkDefault (ε := ε)).get = Except.ok () :=
  ⟨rfl, rfl⟩

/-- C7: every `always_ready_future` holds exactly one of a value or a
captured error (the variant alternatives are mutually exclusive and
exhaustive), and across every sequence of `wait()`/`get()` operations the
held alternative never changes, for both the general `T` instance and the
void specialization. -/
theorem C7_alternative_invariant {T ε : Type} (moved : T → T)
    (ops : List FutOp) (fut : always_ready_future T ε)
    (futv : always_ready_future_void ε) :
    (run_ops moved ops fut).holds_value = fut.holds_value ∧
    (run_ops moved ops fut).holds_error = !(run_ops moved ops fut).holds_value ∧
    fut.holds_error = !fut.holds_value ∧
    (run_ops_void ops futv).holds_error = futv.holds_error := by
  refine ⟨run_ops_preserves_holds_value moved ops fut, ?_, ?_, ?_⟩
  · exact holds_error_eq_not_holds_value _
  · exact holds_error_eq_not_holds_value _
  · rw [run_ops_void_eq]

/-- C8: `bulk_sync_execute(f, n, fa, fb)` makes exactly `n` element
invocations, one per index in `[0, n)` and none outside it, invokes each
of the two factories exactly once regardless of `n` (including `n = 0`),
and every factory invocation is positioned strictly before every element
invocation in the call trace. -/
theorem C8_bulk_invocation_counts {A B : Type} (n : Nat) (fa : Unit → A)
    (fb : Unit → B) :
    (inline_executor.bulk_sync_execute n fa fb).countP
        inline_executor.BulkEvent.is_element = n ∧
    (∀ i, i < n → (inline_executor.bulk_sync_execute n fa fb).countP
        (inline_executor.BulkEvent.is_element_at i) = 1) ∧
    (∀ i, n ≤ i → (inline_executor.bulk_sync_execute n fa fb).countP
        (inline_executor.BulkEvent.is_element_at i) = 0) ∧
    (inline_executor.bulk_sync_execute n fa fb).countP
        inline_executor.BulkEvent.is_factory_first = 1 ∧
    (inline_executor.bulk_sync_execute n fa fb).countP
        inline_executor.BulkEvent.is_factory_second = 1 ∧
    (∀ (j k : Nat) (evj evk : inline_executor.BulkEvent A B),
      (inline_executor.bulk_sync_execute n fa fb)[j]? = some evj →
      evj.is_factory = true →
      (inline_executor.bulk_sync_execute n fa fb)[k]? = some evk →
      evk.is_element = true → j < k) := by
  refine ⟨?_, ?_, ?_, ?_, ?_, ?_⟩
  · simp [inline_executor.bulk_sync_execute, List.countP_cons, List.countP_map,
      Function.comp_def, inline_executor.BulkEvent.is_element]
  · intro i hi
    have h1 : (inline_executor.bulk_sync_execute n fa fb).countP
        (inline_executor.BulkEvent.is_element_at i) =
        List.countP (fun j => j == i) (List.range n) := by
      simp [inline_executor.bulk_sync_execute, List.countP_cons,
        List.countP_map, Function.comp_def,
        inline_executor.BulkEvent.is_element_at]
    rw [h1]
    have h2 : List.countP (fun j => j == i) (List.range n) =
        List.count i (List.range n) := rfl
    rw [h2]
    exact List.count_eq_one_of_mem (List.nodup_range n) (List.mem_range.mpr hi)
  · intro i hi
    rw [List.countP_eq_zero]
    intro ev hev
    simp only [inline_executor.bulk_sync_execute, List.mem_cons,
      List.mem_map, List.mem_range] at hev
    rcases hev with rfl | rfl | ⟨m, hm, rfl⟩
    · simp [inline_executor.BulkEvent.is_element_at]
    · simp [inline_executor.BulkEvent.is_element_at]
    · simp [inline_executor.BulkEvent.is_element_at]
      omega
  · simp [inline_executor.bulk_sync_execute, List.countP_cons, List.countP_map,
      Function.comp_def, inline_executor.BulkEvent.is_factory_first]
  · simp [inline_executor.bulk_sync_execute, List.countP_cons, List.countP_map,
      Function.comp_def, inline_executor.BulkEvent.is_factory_second]
  · intro j k evj evk hj hjf hk hke
    have h1 := bulk_factory_position n fa fb j evj hj hjf
    have h2 := bulk_element_position n fa fb k evk hk hke
    omega

/-- Witness for C8 at `n = 2` with constant factories: index `1` is
invoked exactly once, index `5` never, and the factory event at position
`0` precedes the element event at position `2`. -/
theorem C8_witness :
    (inline_executor.bulk_sync_execute 2 (fun _ => (0 : Nat))
        (fun _ => (0 : Nat))).countP
      (inline_executor.BulkEvent.is_element_at 1) = 1 ∧
    (inline_executor.bulk_sync_execute 2 (fun _ => (0 : Nat))
        (fun _ => (0 : Nat))).countP
      (inline_executor.BulkEvent.is_element_at 5) = 0 ∧
    0 < 2 := by
  have h := C8_bulk_invocation_counts 2 (fun _ => (0 : Nat)) (fun _ => (0 : Nat))
  refine ⟨h.2.1 1 (by decide), h.2.2.1 5 (by decide), ?_⟩
  exact h.2.2.2.2.2 0 2
    (inline_executor.BulkEvent.factory_a 0)
    (inline_executor.BulkEvent.element 0 0 0)
    (by decide) (by decide) (by decide) (by decide)

/-- C9: the claim states that `async_execute(f)`'s returned future, queried
with `get()`, yields the same result as calling `f()` directly.  The
spec-modelled `async_execute` does capture `f`'s result into the returned
future via `detail::try_invoke`, but `get()` on that future (hpp lines
41-44) discards the stored value and returns no determinate value (the
missing-`return` bug), so at `f = fun _ => 5` a direct call yields `5`
while `get()` on the returned future does not. -/
theorem C9_async_execute_get_mismatch :
    inline_executor.async_execute (fun _ => (Except.ok 5 : Except Nat Nat)) =
      Except.ok (always_ready_future.fromValue 5) ∧
    (fun _ => (Except.ok 5 : Except Nat Nat)) () = Except.ok 5 ∧
    (always_ready_future.fromValue (ε := Nat) (5 : Nat)).get = Except.ok none ∧
    (always_ready_future.fromValue (ε := Nat) (5 : Nat)).get ≠
      Except.ok (some 5) := by
  refine ⟨rfl, rfl, rfl, ?_⟩
  intro h
  exact Option.noConfusion (Except.ok.inj h)

/-- C10: `get()` on an error-holding future leaves the stored error
untouched, so any number `k` of successive `get()` calls each raise the
same stored failure `e`, for both the general `T` instance and the void
specialization. -/
theorem C10_error_get_repeatable {T ε : Type} (moved : T → T) (e : ε)
    (k : Nat) :
    (always_ready_future.fromError (T := T) e).get_full moved =
      (Except.error e, always_ready_future.fromError (T := T) e) ∧
    (always_ready_future_void.fromError e).get_full =
      (Except.error e, always_ready_future_void.fromError e) ∧
    get_results moved k (always_ready_future.fromError (T := T) e) =
      List.replicate k (Except.error e) ∧
    get_results_void k (always_ready_future_void.fromError e) =
      List.replicate k (Except.error e) :=
  ⟨rfl, rfl, get_results_fromError moved e k, get_results_void_fromError e k⟩
